import Mathlib

/-!
Shallow embedding of the multi-terminal session manager
(`TerminalManager`, renderer side) of the Frame repository.

The JS `Map<id, {terminal, fitAddon, element, state}>` is modelled as an
association list in insertion order (JS `Map` preserves insertion order;
`set` on an existing key updates in place, `delete` removes the entry).
Side effects (`ipcRenderer.send`, the `onStateChange` subscriber callback)
are modelled as an output list of effects returned by each operation; an
`onStateChange` subscriber is assumed installed (the UI installs one at
startup).  JS truthiness of a numeric id (`if (this.activeTerminalId)`)
is modelled faithfully: `null` and `0` are falsy.  `Date.now()` and the
emulator's `fit()` computation are environment inputs, passed as
parameters.
-/

namespace Frame

/-- The per-session `state` record built in `_initializeTerminal`. -/
structure SessionState where
  id : Nat
  name : String
  customName : Option String
  isActive : Bool
  createdAt : Nat
  deriving Repr, DecidableEq

/-- One entry of `this.terminals`: the session state plus the abstract
emulator bits the claims observe (`opened`, current `cols`/`rows`). -/
structure Instance where
  state : SessionState
  opened : Bool
  cols : Nat
  rows : Nat
  deriving Repr, DecidableEq

/-- The mutable fields of the `TerminalManager` object. -/
structure Manager where
  terminals : List (Nat × Instance)
  activeTerminalId : Option Nat
  viewMode : String
  gridLayout : String
  maxTerminals : Nat
  terminalCounter : Nat
  deriving Repr, DecidableEq

/-- Snapshot passed to the `onStateChange` subscriber. -/
structure Snapshot where
  terminals : List SessionState
  activeTerminalId : Option Nat
  viewMode : String
  gridLayout : String
  deriving Repr, DecidableEq

/-- Channel messages sent via `ipcRenderer.send`. -/
inductive Msg where
  | create (cwd : Option String)
  | destroy (id : Nat)
  | input (id : Nat) (data : String)
  | resize (id : Nat) (cols rows : Nat)
  deriving Repr, DecidableEq

/-- Observable effects of an operation, in order of occurrence. -/
inductive Eff where
  | send (m : Msg)
  | notify (s : Snapshot)
  deriving Repr, DecidableEq

/-- JS `Map.get`: first entry with the key, if any. -/
def mapGet (l : List (Nat × Instance)) (k : Nat) : Option Instance :=
  (l.find? (fun p => p.1 = k)).map (fun p => p.2)

/-- JS `Map.has`. -/
def mapHas (l : List (Nat × Instance)) (k : Nat) : Bool :=
  l.any (fun p => p.1 = k)

/-- JS `Map.set`: update in place if the key exists, else append. -/
def mapSet (l : List (Nat × Instance)) (k : Nat) (v : Instance) :
    List (Nat × Instance) :=
  if mapHas l k then l.map (fun p => if p.1 = k then (k, v) else p)
  else l ++ [(k, v)]

/-- JS `Map.delete`. -/
def mapDelete (l : List (Nat × Instance)) (k : Nat) : List (Nat × Instance) :=
  l.filter (fun p => p.1 ≠ k)

/-- JS truthiness of `this.activeTerminalId`: `null` and `0` are falsy. -/
def truthy : Option Nat → Bool
  | none => false
  | some n => n != 0

/-- JS truthiness of `options.name` / `options.cwd`: absent and `""` are
falsy (`options.name || default`, `options.cwd || null`). -/
def jsStr : Option String → Option String
  | none => none
  | some s => if s = "" then none else some s

/-- Stable insertion step for the ascending-`createdAt` sort. -/
def insertByCreatedAt (x : SessionState) : List SessionState → List SessionState
  | [] => [x]
  | y :: ys =>
      if x.createdAt ≤ y.createdAt then x :: y :: ys
      else y :: insertByCreatedAt x ys

/-- Stable sort by `createdAt` ascending — the behavior of the (stable,
per the JS language spec) `Array.prototype.sort` with comparator
`(a, b) => a.createdAt - b.createdAt`. -/
def sortByCreatedAt : List SessionState → List SessionState
  | [] => []
  | x :: xs => insertByCreatedAt x (sortByCreatedAt xs)

/-- Source `getTerminalStates()`: copies of the states, sorted by `createdAt`
ascending (the `{...t.state}` spread is a copy; values here are pure). -/
def getTerminalStates (m : Manager) : List SessionState :=
  sortByCreatedAt (m.terminals.map (fun p => p.2.state))

/-- The snapshot `_notifyStateChange` builds. -/
def mkSnapshot (m : Manager) : Snapshot :=
  { terminals := getTerminalStates m
    activeTerminalId := m.activeTerminalId
    viewMode := m.viewMode
    gridLayout := m.gridLayout }

/-- Source `_notifyStateChange()`, with a subscriber installed. -/
def notifyEff (m : Manager) : List Eff :=
  [Eff.notify (mkSnapshot m)]

/-- In-place mutation of the instance stored under a key (JS object
mutation through `Map.get`): entries with other keys are untouched, a
missing key makes it a no-op. -/
def updEntry (l : List (Nat × Instance)) (k : Nat) (f : Instance → Instance) :
    List (Nat × Instance) :=
  l.map (fun p => if p.1 = k then (p.1, f p.2) else p)

/-- Clear `state.isActive` on an instance. -/
def clearActiveFlag (i : Instance) : Instance :=
  { i with state := { i.state with isActive := false } }

/-- Set `state.isActive` on an instance. -/
def setActiveFlag (i : Instance) : Instance :=
  { i with state := { i.state with isActive := true } }

/-- Source `setActiveTerminal(terminalId)`: clears the previous active entry's
flag when the previous id is truthy and present, unconditionally stores
the new id, and sets the flag on the new entry when present. -/
def setActiveTerminal (m : Manager) (tid : Nat) : Manager × List Eff :=
  let ts1 :=
    match m.activeTerminalId with
    | some pid =>
        if pid ≠ 0 then updEntry m.terminals pid clearActiveFlag
        else m.terminals
    | none => m.terminals
  let ts2 := updEntry ts1 tid setActiveFlag
  let m1 := { m with terminals := ts2, activeTerminalId := some tid }
  (m1, notifyEff m1)

/-- The counter after `_initializeTerminal`: `++this.terminalCounter`
runs only when `options.name` is falsy. -/
def initCounter (m : Manager) (nameOpt : Option String) : Nat :=
  match jsStr nameOpt with
  | some _ => m.terminalCounter
  | none => m.terminalCounter + 1

/-- The fresh instance `_initializeTerminal` builds (xterm defaults
80x24, not yet opened, `isActive` initially false). -/
def initInstance (m : Manager) (tid : Nat) (nameOpt : Option String)
    (now : Nat) : Instance :=
  let nm :=
    match jsStr nameOpt with
    | some s => s
    | none => "Terminal " ++ toString (m.terminalCounter + 1)
  { state := { id := tid, name := nm, customName := none, isActive := false,
               createdAt := now }
    opened := false, cols := 80, rows := 24 }

/-- Source `_initializeTerminal(terminalId, options)`: builds the state record
(default name `Terminal ${++this.terminalCounter}` when `options.name`
is falsy), inserts the instance, auto-activates when it is the only one
or no active id is truthy, then notifies. `now` is `Date.now()`. -/
def initializeTerminal (m : Manager) (tid : Nat) (nameOpt : Option String)
    (now : Nat) : Manager × List Eff :=
  let counter' := initCounter m nameOpt
  let inst := initInstance m tid nameOpt now
  let ts' := mapSet m.terminals tid inst
  let m1 := { m with terminals := ts', terminalCounter := counter' }
  if ts'.length == 1 || !truthy m1.activeTerminalId then
    let (m2, e2) := setActiveTerminal m1 tid
    (m2, e2 ++ notifyEff m2)
  else
    (m1, notifyEff m1)

/-- Result of the synchronous part of `createTerminal`. -/
inductive CreateResult where
  | rejected
  | requested (cwd : Option String)
  deriving Repr, DecidableEq

/-- Source `createTerminal(options)`, synchronous part: at or above
`maxTerminals` it logs and returns `null` without touching any state or
sending anything; otherwise it sends `TERMINAL_CREATE` with
`options.cwd || null` and awaits the one-shot reply (which, on success,
runs `initializeTerminal`). -/
def createTerminal (m : Manager) (cwd : Option String) :
    Manager × List Eff × CreateResult :=
  if m.terminals.length ≥ m.maxTerminals then
    (m, [], CreateResult.rejected)
  else
    (m, [Eff.send (Msg.create (jsStr cwd))], CreateResult.requested (jsStr cwd))

/-- Source `closeTerminal(terminalId)`: no-op when the id is unknown; otherwise
disposes the emulator, deletes the entry, sends `TERMINAL_DESTROY`,
reassigns activation to the last remaining key when the closed one was
active, and notifies. -/
def closeTerminal (m : Manager) (tid : Nat) : Manager × List Eff :=
  match mapGet m.terminals tid with
  | none => (m, [])
  | some _ =>
      let ts := mapDelete m.terminals tid
      let e0 := [Eff.send (Msg.destroy tid)]
      let m1 := { m with terminals := ts }
      if m1.activeTerminalId = some tid then
        let newActive := (ts.map (fun p => p.1)).getLast?
        let m2 := { m1 with activeTerminalId := newActive }
        if truthy m2.activeTerminalId then
          match newActive with
          | some k =>
              let (m3, e3) := setActiveTerminal m2 k
              (m3, e0 ++ e3 ++ notifyEff m3)
          | none => (m2, e0 ++ notifyEff m2)
        else (m2, e0 ++ notifyEff m2)
      else
        (m1, e0 ++ notifyEff m1)

/-- Source `renameTerminal(terminalId, newName)`: when present, sets both
`customName` and `name`, then notifies; unknown ids are a no-op. -/
def renameTerminal (m : Manager) (tid : Nat) (nm : String) : Manager × List Eff :=
  match mapGet m.terminals tid with
  | none => (m, [])
  | some _ =>
      let ts := updEntry m.terminals tid (fun i =>
        { i with state := { i.state with customName := some nm, name := nm } })
      let m1 := { m with terminals := ts }
      (m1, notifyEff m1)

/-- Source `setViewMode(mode)`. -/
def setViewMode (m : Manager) (mode : String) : Manager × List Eff :=
  let m1 := { m with viewMode := mode }
  (m1, notifyEff m1)

/-- Source `setGridLayout(layout)`. -/
def setGridLayout (m : Manager) (layout : String) : Manager × List Eff :=
  let m1 := { m with gridLayout := layout }
  (m1, notifyEff m1)

/-- Source `mountTerminal(terminalId, container)`, synchronous part: marks the
instance opened (the delayed fit runs later, asynchronously). -/
def mountTerminal (m : Manager) (tid : Nat) (hasContainer : Bool) : Manager :=
  match mapGet m.terminals tid with
  | none => m
  | some inst =>
      if hasContainer then
        { m with terminals := mapSet m.terminals tid { inst with opened := true } }
      else m

/-- Source `_sendResize(terminalId)`: sends the instance's current
`terminal.cols`/`terminal.rows` when the id is present. -/
def sendResize (m : Manager) (tid : Nat) : Manager × List Eff :=
  match mapGet m.terminals tid with
  | none => (m, [])
  | some inst => (m, [Eff.send (Msg.resize tid inst.cols inst.rows)])

/-- The body of `fitAll`'s loop, iterating the entries of the map as they
were when the loop started (the loop neither adds nor removes entries).
`fit id` is the (cols, rows) the emulator's `fit()` computes for entry
`id` from its current container; `fit()` stores it into the emulator's
`cols`/`rows`, which `_sendResize` then reads. -/
def fitAllAux (fit : Nat → Nat × Nat) (m : Manager) :
    List (Nat × Instance) → Manager × List Eff
  | [] => (m, [])
  | kv :: rest =>
      if kv.2.opened then
        let fitted := { kv.2 with cols := (fit kv.1).1, rows := (fit kv.1).2 }
        let m1 := { m with terminals := mapSet m.terminals kv.1 fitted }
        let (m2, es) := sendResize m1 kv.1
        let (m3, es2) := fitAllAux fit m2 rest
        (m3, es ++ es2)
      else fitAllAux fit m rest

/-- Source `fitAll()`: for each opened (mounted) terminal, refit and send a
resize message. -/
def fitAll (m : Manager) (fit : Nat → Nat × Nat) : Manager × List Eff :=
  fitAllAux fit m m.terminals

/-- The `TERMINAL_DESTROYED` handler installed by `_setupIPC`:
host-initiated exit for `terminalId` calls `closeTerminal(terminalId)`
when the id is (still) present. -/
def terminalDestroyed (m : Manager) (tid : Nat) : Manager × List Eff :=
  if mapHas m.terminals tid then closeTerminal m tid else (m, [])

/-- The state the constructor builds. -/
def initialManager : Manager :=
  { terminals := []
    activeTerminalId := none
    viewMode := "tabs"
    gridLayout := "2x2"
    maxTerminals := 9
    terminalCounter := 0 }

end Frame

namespace Frame

/-- One externally triggered manager operation (UI event or host
message), with environment inputs (`Date.now()`, the emulator fit
computation) as parameters. -/
inductive Op where
  | create (cwd : Option String)
  | init (tid : Nat) (nameOpt : Option String) (now : Nat)
  | close (tid : Nat)
  | setAct (tid : Nat)
  | rename (tid : Nat) (nm : String)
  | hostExit (tid : Nat)
  | setView (mode : String)
  | setGrid (layout : String)
  | mount (tid : Nat) (hasContainer : Bool)
  | fitAllOp (fit : Nat → Nat × Nat)

/-- The state transition of one operation. -/
def stepOp (m : Manager) : Op → Manager
  | Op.create cwd => (createTerminal m cwd).1
  | Op.init tid nopt now => (initializeTerminal m tid nopt now).1
  | Op.close tid => (closeTerminal m tid).1
  | Op.setAct tid => (setActiveTerminal m tid).1
  | Op.rename tid nm => (renameTerminal m tid nm).1
  | Op.hostExit tid => (terminalDestroyed m tid).1
  | Op.setView mode => (setViewMode m mode).1
  | Op.setGrid layout => (setGridLayout m layout).1
  | Op.mount tid hc => mountTerminal m tid hc
  | Op.fitAllOp fit => (fitAll m fit).1

/-- Modelled from the spec: the PTY host controller that assigns session
ids is absent from the sources (only the single-terminal legacy main
process is present).  Per the spec, ids are abstract identifiers, unique and assigned
by the host at creation; the reference host hands out nonzero numeric
ids, which the manager's JS truthiness tests
(`if (this.activeTerminalId)`) rely on to distinguish an id from
`null`.  An operation is valid when any id a session is created under is
nonzero. -/
def ValidOp : Op → Prop
  | Op.init tid _ _ => tid ≠ 0
  | _ => True

instance : DecidablePred ValidOp := by
  intro o
  cases o <;> simp only [ValidOp] <;> infer_instance

/-- States reachable from the freshly constructed manager by valid
operations. -/
inductive Reachable : Manager → Prop
  | init : Reachable initialManager
  | step {m : Manager} {o : Op} : Reachable m → ValidOp o → Reachable (stepOp m o)

/-- Number of registry entries currently flagged active. -/
def activeCount (m : Manager) : Nat :=
  (m.terminals.filter (fun p => p.2.state.isActive)).length

/-- The keys of the registry, in insertion (= creation) order. -/
def keysOf (m : Manager) : List Nat :=
  m.terminals.map (fun p => p.1)

/-- The sequence number (if any) a single operation consumes for a
default display name (`Terminal N`). -/
def seqNumHead (m : Manager) : Op → List Nat
  | Op.init _ nopt _ => if jsStr nopt = none then [m.terminalCounter + 1] else []
  | _ => []

/-- The sequence numbers consumed for default display names
(`Terminal N`) along a run of operations started in `m`. -/
def seqNumsFrom (m : Manager) : List Op → List Nat
  | [] => []
  | o :: os => seqNumHead m o ++ seqNumsFrom (stepOp m o) os

/-- Scenario state: one session A (id 1) created. -/
def mgrA : Manager := (initializeTerminal initialManager 1 none 10).1

/-- Scenario state: sessions A (id 1) and B (id 2) created in order. -/
def mgrAB : Manager := (initializeTerminal mgrA 2 none 20).1

/-- Scenario state: sessions A, B, C (ids 1, 2, 3) created in order. -/
def mgrABC : Manager := (initializeTerminal mgrAB 3 none 30).1

/-- Scenario state: A, B, C created in order, then B activated. -/
def mgrABCb : Manager := (setActiveTerminal mgrABC 2).1

/-- Scenario state: nine sessions (the bound) created. -/
def mgr9 : Manager :=
  (List.range 9).foldl
    (fun m i => (initializeTerminal m (i + 1) none (10 * (i + 1))).1)
    initialManager

section MapLemmas

lemma mapGet_nil (k : Nat) : mapGet [] k = none := rfl

lemma mapGet_cons (x : Nat × Instance) (xs : List (Nat × Instance)) (k : Nat) :
    mapGet (x :: xs) k = if x.1 = k then some x.2 else mapGet xs k := by
  rw [mapGet, List.find?_cons]
  by_cases h : x.1 = k
  · simp [h]
  · simp [h, mapGet]

lemma mapHas_iff_mem_keys (l : List (Nat × Instance)) (k : Nat) :
    mapHas l k = true ↔ k ∈ l.map (fun p => p.1) := by
  induction l with
  | nil => simp [mapHas]
  | cons x xs ih =>
      rw [List.map_cons, List.mem_cons, ← ih, mapHas, List.any_cons]
      by_cases h : x.1 = k
      · simp [h, mapHas]
      · have h2 : ¬ k = x.1 := fun hc => h hc.symm
        simp [h, h2, mapHas]

lemma mapGet_eq_none_iff (l : List (Nat × Instance)) (k : Nat) :
    mapGet l k = none ↔ k ∉ l.map (fun p => p.1) := by
  induction l with
  | nil => simp [mapGet]
  | cons x xs ih =>
      rw [mapGet_cons, List.map_cons, List.mem_cons]
      by_cases h : x.1 = k
      · simp [h]
      · have : ¬ k = x.1 := fun hc => h hc.symm
        simp [h, this, ih]

lemma mapGet_isSome_of_mem_keys {l : List (Nat × Instance)} {k : Nat}
    (h : k ∈ l.map (fun p => p.1)) : ∃ v, mapGet l k = some v := by
  rcases h' : mapGet l k with _ | v
  · exact absurd ((mapGet_eq_none_iff l k).1 h') (not_not_intro h)
  · exact ⟨v, rfl⟩

lemma mapHas_of_mapGet_some {l : List (Nat × Instance)} {k : Nat} {v : Instance}
    (h : mapGet l k = some v) : mapHas l k = true := by
  rw [mapHas_iff_mem_keys]
  by_contra hmem
  rw [← mapGet_eq_none_iff] at hmem
  rw [h] at hmem
  exact Option.noConfusion hmem

lemma mapGet_some_mem {l : List (Nat × Instance)} {k : Nat} {v : Instance}
    (h : mapGet l k = some v) : (k, v) ∈ l := by
  induction l with
  | nil => exact Option.noConfusion h
  | cons x xs ih =>
      rw [mapGet_cons] at h
      by_cases hx : x.1 = k
      · rw [if_pos hx] at h
        have hx2 : x = (k, v) := by
          obtain ⟨a, b⟩ := x
          obtain rfl : a = k := hx
          obtain rfl : b = v := Option.some.inj h
          rfl
        rw [hx2]
        exact List.mem_cons_self _ _
      · rw [if_neg hx] at h
        exact List.mem_cons_of_mem x (ih h)

lemma keys_updEntry (l : List (Nat × Instance)) (k : Nat) (f : Instance → Instance) :
    (updEntry l k f).map (fun p => p.1) = l.map (fun p => p.1) := by
  induction l with
  | nil => rfl
  | cons x xs ih =>
      simp only [updEntry, List.map_cons] at ih ⊢
      by_cases h : x.1 = k <;> simp [h, ih]

lemma mapGet_updEntry_self (l : List (Nat × Instance)) (k : Nat)
    (f : Instance → Instance) :
    mapGet (updEntry l k f) k = (mapGet l k).map f := by
  induction l with
  | nil => rfl
  | cons x xs ih =>
      rw [updEntry, List.map_cons]
      by_cases h : x.1 = k
      · rw [if_pos h, mapGet_cons, mapGet_cons]
        simp [h]
      · rw [if_neg h, mapGet_cons, mapGet_cons, if_neg h, if_neg h]
        exact ih

lemma mapGet_updEntry_ne (l : List (Nat × Instance)) {k k' : Nat}
    (f : Instance → Instance) (h : k' ≠ k) :
    mapGet (updEntry l k f) k' = mapGet l k' := by
  induction l with
  | nil => rfl
  | cons x xs ih =>
      rw [updEntry, List.map_cons]
      by_cases hx : x.1 = k
      · rw [if_pos hx, mapGet_cons, mapGet_cons]
        have hne : ¬ x.1 = k' := by rw [hx]; exact fun hc => h hc.symm
        rw [if_neg (by simpa [hx] using hne), if_neg hne]
        exact ih
      · rw [if_neg hx, mapGet_cons, mapGet_cons]
        by_cases hx' : x.1 = k'
        · rw [if_pos hx', if_pos hx']
        · rw [if_neg hx', if_neg hx']
          exact ih

lemma mem_updEntry {l : List (Nat × Instance)} {k : Nat} {f : Instance → Instance}
    {p : Nat × Instance} (h : p ∈ updEntry l k f) :
    ∃ q ∈ l, p = if q.1 = k then (q.1, f q.2) else q := by
  rcases List.mem_map.1 h with ⟨q, hq, heq⟩
  exact ⟨q, hq, heq.symm⟩

lemma mapGet_mapSet_self (l : List (Nat × Instance)) (k : Nat) (v : Instance) :
    mapGet (mapSet l k v) k = some v := by
  rw [mapSet]
  by_cases h : mapHas l k = true
  · rw [if_pos h]
    rw [mapHas_iff_mem_keys] at h
    induction l with
    | nil => simp at h
    | cons x xs ih =>
        rw [List.map_cons]
        by_cases hx : x.1 = k
        · rw [if_pos hx, mapGet_cons]
          simp
        · rw [if_neg hx, mapGet_cons, if_neg hx]
          simp only [List.map_cons, List.mem_cons] at h
          rcases h with h | h
          · exact absurd h.symm hx
          · exact ih h
  · rw [if_neg h]
    induction l with
    | nil => rw [List.nil_append, mapGet_cons]; simp
    | cons x xs ih =>
        rw [List.cons_append, mapGet_cons]
        by_cases hx : x.1 = k
        · exfalso
          apply h
          rw [mapHas, List.any_cons]
          simp [hx]
        · rw [if_neg hx]
          apply ih
          intro hc
          apply h
          rw [mapHas, List.any_cons]
          rw [mapHas] at hc
          simp [hc]

lemma keys_overwrite (l : List (Nat × Instance)) (k : Nat) (v : Instance) :
    (l.map (fun p => if p.1 = k then (k, v) else p)).map (fun p => p.1) =
      l.map (fun p => p.1) := by
  induction l with
  | nil => rfl
  | cons x xs ih =>
      rw [List.map_cons, List.map_cons, List.map_cons]
      by_cases hx : x.1 = k <;> simp [hx, ih]

lemma keys_mapSet_of_mapHas (l : List (Nat × Instance)) (k : Nat) (v : Instance)
    (h : mapHas l k = true) :
    (mapSet l k v).map (fun p => p.1) = l.map (fun p => p.1) := by
  rw [mapSet, if_pos h]
  exact keys_overwrite l k v

lemma keys_mapSet_of_not_mapHas (l : List (Nat × Instance)) (k : Nat) (v : Instance)
    (h : ¬ mapHas l k = true) :
    (mapSet l k v).map (fun p => p.1) = l.map (fun p => p.1) ++ [k] := by
  rw [mapSet, if_neg h]
  simp

lemma keys_mapDelete (l : List (Nat × Instance)) (k : Nat) :
    (mapDelete l k).map (fun p => p.1) =
      (l.map (fun p => p.1)).filter (fun x => x ≠ k) := by
  induction l with
  | nil => rfl
  | cons x xs ih =>
      rw [mapDelete] at ih ⊢
      simp only [ne_eq, decide_not] at ih ⊢
      rw [List.filter_cons, List.map_cons, List.filter_cons]
      by_cases h : x.1 = k
      · simp [h, ih]
      · simp [h, ih]

lemma mapGet_mapDelete_self (l : List (Nat × Instance)) (k : Nat) :
    mapGet (mapDelete l k) k = none := by
  rw [mapGet_eq_none_iff, keys_mapDelete]
  simp

lemma mem_mapDelete {l : List (Nat × Instance)} {k : Nat} {p : Nat × Instance}
    (h : p ∈ mapDelete l k) : p ∈ l ∧ p.1 ≠ k := by
  rw [mapDelete] at h
  have := List.mem_filter.1 h
  exact ⟨this.1, by simpa using this.2⟩

end MapLemmas

end Frame

namespace Frame

section SortLemmas

lemma insertByCreatedAt_perm (x : SessionState) (l : List SessionState) :
    List.Perm (insertByCreatedAt x l) (x :: l) := by
  induction l with
  | nil => rfl
  | cons y ys ih =>
      rw [insertByCreatedAt]
      by_cases h : x.createdAt ≤ y.createdAt
      · rw [if_pos h]
      · rw [if_neg h]
        exact ((ih.cons y).trans (List.Perm.swap x y ys))

lemma sortByCreatedAt_perm (l : List SessionState) :
    List.Perm (sortByCreatedAt l) l := by
  induction l with
  | nil => rfl
  | cons x xs ih =>
      rw [sortByCreatedAt]
      exact (insertByCreatedAt_perm x (sortByCreatedAt xs)).trans (ih.cons x)

lemma insertByCreatedAt_sorted {l : List SessionState} (x : SessionState)
    (h : l.Pairwise (fun a b => a.createdAt ≤ b.createdAt)) :
    (insertByCreatedAt x l).Pairwise (fun a b => a.createdAt ≤ b.createdAt) := by
  induction l with
  | nil => simp [insertByCreatedAt]
  | cons y ys ih =>
      rw [insertByCreatedAt]
      rcases List.pairwise_cons.1 h with ⟨hy, hys⟩
      by_cases hle : x.createdAt ≤ y.createdAt
      · rw [if_pos hle]
        refine List.pairwise_cons.2 ⟨?_, h⟩
        intro z hz
        rcases List.mem_cons.1 hz with rfl | hz
        · exact hle
        · exact le_trans hle (hy z hz)
      · rw [if_neg hle]
        refine List.pairwise_cons.2 ⟨?_, ih hys⟩
        intro z hz
        have hz' := (insertByCreatedAt_perm x ys).mem_iff.1 hz
        rcases List.mem_cons.1 hz' with rfl | hz'
        · exact le_of_not_le hle
        · exact hy z hz'

lemma sortByCreatedAt_sorted (l : List SessionState) :
    (sortByCreatedAt l).Pairwise (fun a b => a.createdAt ≤ b.createdAt) := by
  induction l with
  | nil => simp [sortByCreatedAt]
  | cons x xs ih => exact insertByCreatedAt_sorted x ih

lemma insertByCreatedAt_filter (x : SessionState) (l : List SessionState) (t : Nat) :
    (insertByCreatedAt x l).filter (fun s => s.createdAt == t) =
      if x.createdAt = t then x :: l.filter (fun s => s.createdAt == t)
      else l.filter (fun s => s.createdAt == t) := by
  induction l with
  | nil =>
      rw [insertByCreatedAt]
      by_cases hx : x.createdAt = t <;> simp [hx]
  | cons y ys ih =>
      rw [insertByCreatedAt]
      by_cases hle : x.createdAt ≤ y.createdAt
      · rw [if_pos hle, List.filter_cons]
        by_cases hx : x.createdAt = t <;> simp [hx]
      · rw [if_neg hle, List.filter_cons, List.filter_cons]
        by_cases hy : y.createdAt = t
        · have hx : ¬ x.createdAt = t := by
            intro hc
            rw [hc, hy] at hle
            exact hle le_rfl
          simp [hy, hx, ih]
        · by_cases hx : x.createdAt = t <;> simp [hy, hx, ih]

lemma sortByCreatedAt_filter (l : List SessionState) (t : Nat) :
    (sortByCreatedAt l).filter (fun s => s.createdAt == t) =
      l.filter (fun s => s.createdAt == t) := by
  induction l with
  | nil => rfl
  | cons x xs ih =>
      rw [sortByCreatedAt, insertByCreatedAt_filter, List.filter_cons]
      by_cases hx : x.createdAt = t <;> simp [hx, ih]

end SortLemmas

end Frame

namespace Frame

/-- Registry well-formedness maintained by the manager: keys unique and
nonzero, and an entry is flagged active only when `activeTerminalId`
points to it. -/
def GoodState (m : Manager) : Prop :=
  (keysOf m).Nodup ∧
  (∀ p ∈ m.terminals, p.1 ≠ 0) ∧
  (∀ p ∈ m.terminals, p.2.state.isActive = true → m.activeTerminalId = some p.1)

lemma sendResize_fst (m : Manager) (tid : Nat) : (sendResize m tid).1 = m := by
  rw [sendResize]
  rcases mapGet m.terminals tid with _ | inst <;> rfl

lemma createTerminal_fst (m : Manager) (cwd : Option String) :
    (createTerminal m cwd).1 = m := by
  rw [createTerminal]
  split <;> rfl

lemma terminalDestroyed_eq_closeTerminal (m : Manager) (tid : Nat) :
    terminalDestroyed m tid = closeTerminal m tid := by
  rw [terminalDestroyed]
  by_cases h : mapHas m.terminals tid = true
  · rw [if_pos h]
  · rw [if_neg h]
    rcases hget : mapGet m.terminals tid with _ | v
    · simp [closeTerminal, hget]
    · exact absurd (mapHas_of_mapGet_some hget) h

lemma nonzero_updEntry {l : List (Nat × Instance)} {k : Nat} {f : Instance → Instance}
    (h : ∀ p ∈ l, p.1 ≠ 0) : ∀ p ∈ updEntry l k f, p.1 ≠ 0 := by
  intro p hp
  rcases mem_updEntry hp with ⟨q, hq, heq⟩
  by_cases hqk : q.1 = k
  · rw [heq, if_pos hqk]; exact h q hq
  · rw [heq, if_neg hqk]; exact h q hq

/-- After `updEntry l tid setActiveFlag` on a registry with no active
entry, pointing the active id at `tid` yields a good state. -/
lemma good_after_set {m : Manager} {l : List (Nat × Instance)} {tid : Nat}
    (hnd : (l.map (fun p => p.1)).Nodup)
    (hnz : ∀ p ∈ l, p.1 ≠ 0)
    (hin : ∀ p ∈ l, ¬ p.2.state.isActive = true) :
    GoodState { m with terminals := updEntry l tid setActiveFlag,
                       activeTerminalId := some tid } := by
  refine ⟨?_, ?_, ?_⟩
  · show ((updEntry l tid setActiveFlag).map (fun p => p.1)).Nodup
    rw [keys_updEntry]; exact hnd
  · exact fun p hp => nonzero_updEntry hnz p hp
  · intro p hp hact
    rcases mem_updEntry hp with ⟨q, hq, heq⟩
    by_cases hqk : q.1 = tid
    · rw [heq, if_pos hqk]
      simp [hqk]
    · rw [heq, if_neg hqk] at hact
      exact absurd hact (hin q hq)

lemma good_setActiveTerminal {m : Manager} (hg : GoodState m) (tid : Nat) :
    GoodState (setActiveTerminal m tid).1 := by
  obtain ⟨hnd, hnz, hpt⟩ := hg
  rcases hA : m.activeTerminalId with _ | pid
  · have hin : ∀ p ∈ m.terminals, ¬ p.2.state.isActive = true := by
      intro p hp hact
      have := hpt p hp hact
      rw [hA] at this
      exact Option.noConfusion this
    simpa [setActiveTerminal, hA] using good_after_set hnd hnz hin
  · by_cases hpid : pid = 0
    · have hin : ∀ p ∈ m.terminals, ¬ p.2.state.isActive = true := by
        intro p hp hact
        have := hpt p hp hact
        rw [hA] at this
        exact hnz p hp (by rw [← Option.some.inj this, hpid])
      simpa [setActiveTerminal, hA, hpid] using good_after_set hnd hnz hin
    · have hin : ∀ p ∈ updEntry m.terminals pid clearActiveFlag,
          ¬ p.2.state.isActive = true := by
        intro p hp hact
        rcases mem_updEntry hp with ⟨q, hq, heq⟩
        by_cases hqk : q.1 = pid
        · rw [heq, if_pos hqk] at hact
          simp [clearActiveFlag] at hact
        · rw [heq, if_neg hqk] at hact
          have := hpt q hq hact
          rw [hA] at this
          exact hqk (Option.some.inj this).symm
      have hnd' : ((updEntry m.terminals pid clearActiveFlag).map (fun p => p.1)).Nodup := by
        rw [keys_updEntry]; exact hnd
      have hnz' := nonzero_updEntry (k := pid) (f := clearActiveFlag) hnz
      simpa [setActiveTerminal, hA, hpid] using good_after_set hnd' hnz' hin

end Frame

namespace Frame

/-- Overwriting a present, nonzero key with a value that is active only
if the active id already points there preserves well-formedness. -/
lemma good_mapSet {m : Manager} (hg : GoodState m) {k : Nat} {v : Instance}
    (hhas : mapHas m.terminals k = true) (hk : k ≠ 0)
    (hact : v.state.isActive = true → m.activeTerminalId = some k) :
    GoodState { m with terminals := mapSet m.terminals k v } := by
  obtain ⟨hnd, hnz, hpt⟩ := hg
  refine ⟨?_, ?_, ?_⟩
  · show ((mapSet m.terminals k v).map (fun p => p.1)).Nodup
    rw [keys_mapSet_of_mapHas _ _ _ hhas]; exact hnd
  · intro p hp
    rw [mapSet, if_pos hhas] at hp
    rcases List.mem_map.1 hp with ⟨q, hq, heq⟩
    by_cases hqk : q.1 = k
    · rw [← heq, if_pos hqk]; exact hk
    · rw [← heq, if_neg hqk]; exact hnz q hq
  · intro p hp hactp
    rw [mapSet, if_pos hhas] at hp
    rcases List.mem_map.1 hp with ⟨q, hq, heq⟩
    by_cases hqk : q.1 = k
    · rw [← heq, if_pos hqk] at hactp ⊢
      exact hact hactp
    · rw [← heq, if_neg hqk] at hactp ⊢
      exact hpt q hq hactp

lemma good_initializeTerminal {m : Manager} (hg : GoodState m) {tid : Nat}
    (htid : tid ≠ 0) (nopt : Option String) (now : Nat) :
    GoodState (initializeTerminal m tid nopt now).1 := by
  obtain ⟨hnd, hnz, hpt⟩ := hg
  have hinact : (initInstance m tid nopt now).state.isActive = false := by
    simp [initInstance]
  have hm1 : GoodState { m with
      terminals := mapSet m.terminals tid (initInstance m tid nopt now),
      terminalCounter := initCounter m nopt } := by
    by_cases hhas : mapHas m.terminals tid = true
    · have := good_mapSet (m := m) ⟨hnd, hnz, hpt⟩ hhas htid
        (v := initInstance m tid nopt now) (by rw [hinact]; intro h; exact absurd h (by simp))
      obtain ⟨a, b, c⟩ := this
      exact ⟨a, b, c⟩
    · refine ⟨?_, ?_, ?_⟩
      · show ((mapSet m.terminals tid (initInstance m tid nopt now)).map
          (fun p => p.1)).Nodup
        rw [keys_mapSet_of_not_mapHas _ _ _ hhas]
        rw [List.nodup_append]
        refine ⟨hnd, List.nodup_singleton tid, ?_⟩
        intro a ha hb
        rw [List.mem_singleton] at hb
        rw [hb] at ha
        exact hhas ((mapHas_iff_mem_keys _ _).2 ha)
      · intro p hp
        rw [mapSet, if_neg hhas] at hp
        rcases List.mem_append.1 hp with hp | hp
        · exact hnz p hp
        · rw [List.mem_singleton] at hp
          rw [hp]
          exact htid
      · intro p hp hactp
        rw [mapSet, if_neg hhas] at hp
        rcases List.mem_append.1 hp with hp | hp
        · exact hpt p hp hactp
        · rw [List.mem_singleton] at hp
          rw [hp] at hactp
          rw [hinact] at hactp
          exact absurd hactp (by simp)
  rw [initializeTerminal]
  by_cases hcond : ((mapSet m.terminals tid (initInstance m tid nopt now)).length == 1
      || !truthy m.activeTerminalId) = true
  · simpa [hcond] using good_setActiveTerminal hm1 tid
  · simpa [hcond] using hm1

lemma good_closeTerminal {m : Manager} (hg : GoodState m) (tid : Nat) :
    GoodState (closeTerminal m tid).1 := by
  obtain ⟨hnd, hnz, hpt⟩ := hg
  rcases hget : mapGet m.terminals tid with _ | inst
  · simpa [closeTerminal, hget] using ⟨hnd, hnz, hpt⟩
  · have hndd : ((mapDelete m.terminals tid).map (fun p => p.1)).Nodup := by
      rw [keys_mapDelete]
      exact List.Nodup.filter _ hnd
    have hnzd : ∀ p ∈ mapDelete m.terminals tid, p.1 ≠ 0 :=
      fun p hp => hnz p (mem_mapDelete hp).1
    by_cases hact : m.activeTerminalId = some tid
    · have hin : ∀ p ∈ mapDelete m.terminals tid, ¬ p.2.state.isActive = true := by
        intro p hp hactp
        have h1 := hpt p (mem_mapDelete hp).1 hactp
        rw [hact] at h1
        exact (mem_mapDelete hp).2 (Option.some.inj h1).symm
      rcases hlast : ((mapDelete m.terminals tid).map (fun p => p.1)).getLast?
          with _ | k
      · have hgood2 : GoodState { m with terminals := mapDelete m.terminals tid, activeTerminalId := (none : Option Nat) } :=
          ⟨hndd, hnzd, fun p hp hactp => absurd hactp (hin p hp)⟩
        simp only [closeTerminal, hget, hact, if_pos, hlast]
        simpa [truthy] using hgood2
      · have hgood2 : GoodState { m with terminals := mapDelete m.terminals tid, activeTerminalId := some k } :=
          ⟨hndd, hnzd, fun p hp hactp => absurd hactp (hin p hp)⟩
        by_cases hk : k = 0
        · simp only [closeTerminal, hget, hact, if_pos, hlast]
          simpa [truthy, hk] using hgood2
        · have hres := good_setActiveTerminal hgood2 k
          simp only [closeTerminal, hget, hact, if_pos, hlast]
          have htr : truthy (some k) = true := by simp [truthy, hk]
          simpa [htr] using hres
    · have hgood1 : GoodState { m with terminals := mapDelete m.terminals tid } :=
        ⟨hndd, hnzd, fun p hp hactp => hpt p (mem_mapDelete hp).1 hactp⟩
      simp only [closeTerminal, hget, hact, if_neg, if_false]
      simpa using hgood1

lemma good_renameTerminal {m : Manager} (hg : GoodState m) (tid : Nat) (nm : String) :
    GoodState (renameTerminal m tid nm).1 := by
  obtain ⟨hnd, hnz, hpt⟩ := hg
  rcases hget : mapGet m.terminals tid with _ | inst
  · simpa [renameTerminal, hget] using ⟨hnd, hnz, hpt⟩
  · have key : (renameTerminal m tid nm).1.terminals = updEntry m.terminals tid (fun i => { i with state := { i.state with customName := some nm, name := nm } }) := by
      simp [renameTerminal, hget]
    have keyA : (renameTerminal m tid nm).1.activeTerminalId = m.activeTerminalId := by
      simp [renameTerminal, hget]
    refine ⟨?_, ?_, ?_⟩
    · show ((renameTerminal m tid nm).1.terminals.map (fun p => p.1)).Nodup
      rw [key, keys_updEntry]
      exact hnd
    · intro p hp
      rw [key] at hp
      exact nonzero_updEntry hnz p hp
    · intro p hp hactp
      rw [key] at hp
      rw [keyA]
      rcases mem_updEntry hp with ⟨q, hq, heq⟩
      subst heq
      by_cases hqk : q.1 = tid
      · rw [if_pos hqk] at hactp ⊢
        exact hpt q hq hactp
      · rw [if_neg hqk] at hactp ⊢
        exact hpt q hq hactp

lemma good_mountTerminal {m : Manager} (hg : GoodState m) (tid : Nat)
    (hc : Bool) : GoodState (mountTerminal m tid hc) := by
  rcases hget : mapGet m.terminals tid with _ | inst
  · simpa [mountTerminal, hget] using hg
  · by_cases hb : hc = true
    · have hres : mountTerminal m tid hc = { m with terminals := mapSet m.terminals tid { inst with opened := true } } := by
        simp [mountTerminal, hget, hb]
      rw [hres]
      refine good_mapSet hg (mapHas_of_mapGet_some hget) ?_ ?_
      · exact hg.2.1 (tid, inst) (mapGet_some_mem hget)
      · intro hact
        exact hg.2.2 (tid, inst) (mapGet_some_mem hget) (by simpa using hact)
    · have hres : mountTerminal m tid hc = m := by
        simp [mountTerminal, hget, hb]
      rw [hres]
      exact hg

lemma good_fitAllAux (fit : Nat → Nat × Nat) :
    ∀ (l : List (Nat × Instance)) (m : Manager),
      GoodState m →
      (∀ kv ∈ l, mapHas m.terminals kv.1 = true) →
      (∀ kv ∈ l, kv.1 ≠ 0) →
      (∀ kv ∈ l, kv.2.state.isActive = true → m.activeTerminalId = some kv.1) →
      GoodState (fitAllAux fit m l).1 := by
  intro l
  induction l with
  | nil => intro m hg _ _ _; exact hg
  | cons kv rest ih =>
      intro m hg hhas hnz hpt
      rw [fitAllAux]
      by_cases hop : kv.2.opened = true
      · rw [if_pos hop]
        have hm1 : GoodState { m with terminals := mapSet m.terminals kv.1 ({ kv.2 with cols := (fit kv.1).1, rows := (fit kv.1).2 }) } := by
          refine good_mapSet hg (hhas kv (List.mem_cons_self _ _))
            (hnz kv (List.mem_cons_self _ _)) ?_
          intro hact
          exact hpt kv (List.mem_cons_self _ _) (by simpa using hact)
        have hkeys : ∀ kv2 ∈ rest, mapHas (mapSet m.terminals kv.1 ({ kv.2 with cols := (fit kv.1).1, rows := (fit kv.1).2 })) kv2.1 = true := by
          intro kv2 h2
          rw [mapHas_iff_mem_keys,
            keys_mapSet_of_mapHas _ _ _ (hhas kv (List.mem_cons_self _ _)),
            ← mapHas_iff_mem_keys]
          exact hhas kv2 (List.mem_cons_of_mem _ h2)
        have hstep := ih _ hm1 hkeys
          (fun kv2 h2 => hnz kv2 (List.mem_cons_of_mem _ h2))
          (fun kv2 h2 hact => hpt kv2 (List.mem_cons_of_mem _ h2) hact)
        simpa [sendResize_fst] using hstep
      · rw [if_neg hop]
        exact ih m hg (fun kv2 h2 => hhas kv2 (List.mem_cons_of_mem _ h2))
          (fun kv2 h2 => hnz kv2 (List.mem_cons_of_mem _ h2))
          (fun kv2 h2 hact => hpt kv2 (List.mem_cons_of_mem _ h2) hact)

lemma good_fitAll {m : Manager} (hg : GoodState m) (fit : Nat → Nat × Nat) :
    GoodState (fitAll m fit).1 := by
  rw [fitAll]
  exact good_fitAllAux fit m.terminals m hg
    (fun kv h => (mapHas_iff_mem_keys _ _).2 (List.mem_map.2 ⟨kv, h, rfl⟩))
    (fun kv h => hg.2.1 kv h)
    (fun kv h hact => hg.2.2 kv h hact)

lemma good_initial : GoodState initialManager := by
  refine ⟨?_, ?_, ?_⟩ <;> simp [initialManager, keysOf]

lemma good_stepOp {m : Manager} {o : Op} (hg : GoodState m) (hv : ValidOp o) :
    GoodState (stepOp m o) := by
  cases o with
  | create cwd => rw [stepOp, createTerminal_fst]; exact hg
  | init tid nopt now => exact good_initializeTerminal hg hv nopt now
  | close tid => exact good_closeTerminal hg tid
  | setAct tid => exact good_setActiveTerminal hg tid
  | rename tid nm => exact good_renameTerminal hg tid nm
  | hostExit tid =>
      rw [stepOp, terminalDestroyed_eq_closeTerminal]
      exact good_closeTerminal hg tid
  | setView mode => exact hg
  | setGrid layout => exact hg
  | mount tid hc => exact good_mountTerminal hg tid hc
  | fitAllOp fit => exact good_fitAll hg fit

lemma reachable_goodState {m : Manager} (h : Reachable m) : GoodState m := by
  induction h with
  | init => exact good_initial
  | step hr hv ih => exact good_stepOp ih hv

end Frame

namespace Frame

lemma filter_length_le_one {l : List (Nat × Instance)} {P : Nat × Instance → Bool}
    {a : Nat} (hnd : (l.map (fun p => p.1)).Nodup)
    (hkey : ∀ p ∈ l, P p = true → p.1 = a) :
    (l.filter P).length ≤ 1 := by
  induction l with
  | nil => simp
  | cons x xs ih =>
      rw [List.map_cons, List.nodup_cons] at hnd
      rw [List.filter_cons]
      by_cases hx : P x = true
      · rw [if_pos hx]
        have hxa := hkey x (List.mem_cons_self _ _) hx
        have hemp : xs.filter P = [] := by
          rw [List.filter_eq_nil_iff]
          intro y hy hPy
          have hya : y.1 = a := hkey y (List.mem_cons_of_mem _ hy) hPy
          exact hnd.1 (List.mem_map.2 ⟨y, hy, by rw [hya, hxa]⟩)
        rw [hemp]
        simp
      · rw [if_neg hx]
        exact ih hnd.2 (fun p hp hPp => hkey p (List.mem_cons_of_mem _ hp) hPp)

lemma good_activeCount_le_one {m : Manager} (hg : GoodState m) :
    activeCount m ≤ 1 := by
  obtain ⟨hnd, hnz, hpt⟩ := hg
  rcases hA : m.activeTerminalId with _ | a
  · have hemp : m.terminals.filter (fun p => p.2.state.isActive) = [] := by
      rw [List.filter_eq_nil_iff]
      intro p hp hact
      have := hpt p hp (by simpa using hact)
      rw [hA] at this
      exact Option.noConfusion this
    rw [activeCount, hemp]
    simp
  · exact filter_length_le_one hnd (fun p hp hPp => by
      have := hpt p hp (by simpa using hPp)
      rw [hA] at this
      exact (Option.some.inj this).symm)

end Frame

namespace Frame

/-- C1, counterexample to the claim as stated: `setActiveTerminal` with
an id not in the registry does not fail with `NotFound`.  From the
reachable one-session state (create session 1), calling
`setActiveTerminal 2` — id 2 unknown — completes, clears the previous
active flag, stores `activeTerminalId = 2`, and leaves a state with a
non-empty registry and zero sessions marked active, contradicting "no
state in which two or zero sessions are marked active unless the
registry is empty". -/
theorem c1_counterexample :
    ∃ m : Manager, Reachable m ∧ mapHas m.terminals 2 = false ∧
      activeCount m = 1 ∧
      (setActiveTerminal m 2).1.terminals ≠ [] ∧
      activeCount (setActiveTerminal m 2).1 = 0 ∧
      (setActiveTerminal m 2).1.activeTerminalId = some 2 := by
  refine ⟨stepOp initialManager (Op.init 1 none 10),
    Reachable.step Reachable.init (by decide), ?_, ?_, ?_, ?_, ?_⟩ <;> decide

/-- C1 (amended): in every state reachable from the initial manager by
valid operations (host-assigned creation ids nonzero), at most one
session is flagged `isActive = true`.  The `NotFound` part of the claim
does not hold: `setActiveTerminal` with an unknown id does not fail and
can leave zero sessions active in a non-empty registry (see the
counterexample), though never two. -/
theorem c1_at_most_one_active (m : Manager) (h : Reachable m) :
    activeCount m ≤ 1 :=
  good_activeCount_le_one (reachable_goodState h)

/-- Witness for C1: the amended theorem applied to a concrete reachable
state (one session created, which is auto-activated). -/
theorem c1_at_most_one_active_witness :
    activeCount (stepOp initialManager (Op.init 1 none 10)) ≤ 1 :=
  c1_at_most_one_active _ (Reachable.step Reachable.init (by decide))

end Frame

namespace Frame

/-- C2: closing the currently active session reassigns activation to the
most-recently-created of the remaining sessions — the last entry of the
remaining registry in insertion (= creation) order — and sets its
`isActive` flag; closing the only remaining session leaves no session
active and an empty ordered list.  Host-assigned ids are nonzero (JS
truthiness of `this.activeTerminalId`). -/
theorem c2_close_active_reassigns (m : Manager) (tid : Nat) (inst : Instance)
    (hnz : ∀ p ∈ m.terminals, p.1 ≠ 0)
    (hget : mapGet m.terminals tid = some inst)
    (hact : m.activeTerminalId = some tid) :
    (mapDelete m.terminals tid = [] →
      (closeTerminal m tid).1.activeTerminalId = none ∧
      getTerminalStates (closeTerminal m tid).1 = []) ∧
    (∀ k, ((mapDelete m.terminals tid).map (fun p => p.1)).getLast? = some k →
      (closeTerminal m tid).1.activeTerminalId = some k ∧
      ∃ j, mapGet (closeTerminal m tid).1.terminals k = some j ∧
        j.state.isActive = true) := by
  constructor
  · intro hemp
    have hlast : ((mapDelete m.terminals tid).map (fun p => p.1)).getLast? = none := by
      rw [hemp]; rfl
    constructor
    · simp only [closeTerminal, hget, hact, if_pos, hlast]
      simp [truthy]
    · simp only [closeTerminal, hget, hact, if_pos, hlast]
      simp [truthy, getTerminalStates, hemp, sortByCreatedAt]
  · intro k hlast
    have hkmem : k ∈ (mapDelete m.terminals tid).map (fun p => p.1) :=
      List.mem_of_mem_getLast? hlast
    have hk0 : k ≠ 0 := by
      rcases List.mem_map.1 hkmem with ⟨p, hp, hpk⟩
      rw [← hpk]
      exact hnz p (mem_mapDelete hp).1
    have htr : truthy (some k) = true := by simp [truthy, hk0]
    obtain ⟨j0, hj0⟩ := mapGet_isSome_of_mem_keys hkmem
    constructor
    · simp only [closeTerminal, hget, hact, if_pos, hlast, htr]
      simp [truthy, hk0, setActiveTerminal]
    · simp only [closeTerminal, hget, hact, if_pos, hlast, htr]
      simp only [truthy, hk0, setActiveTerminal]
      refine ⟨setActiveFlag (clearActiveFlag j0), ?_, by simp [setActiveFlag, clearActiveFlag]⟩
      have h1 : mapGet (updEntry (mapDelete m.terminals tid) k clearActiveFlag) k =
          some (clearActiveFlag j0) := by
        rw [mapGet_updEntry_self, hj0]
        rfl
      have h2 : mapGet (updEntry (updEntry (mapDelete m.terminals tid) k clearActiveFlag)
          k setActiveFlag) k = some (setActiveFlag (clearActiveFlag j0)) := by
        rw [mapGet_updEntry_self, h1]
        rfl
      simpa [truthy, hk0] using h2

/-- Witness for C2: the literal scenario — create A, B, C (ids 1, 2, 3)
in order, activate B, close B: the active session becomes C (id 3), not
A; and closing the only session of a one-session registry leaves no
active session and an empty list. -/
theorem c2_close_active_reassigns_witness :
    ((closeTerminal mgrABCb 2).1.activeTerminalId = some 3 ∧
      ∃ j, mapGet (closeTerminal mgrABCb 2).1.terminals 3 = some j ∧
        j.state.isActive = true) ∧
    ((closeTerminal mgrA 1).1.activeTerminalId = none ∧
      getTerminalStates (closeTerminal mgrA 1).1 = []) := by
  constructor
  · exact (c2_close_active_reassigns mgrABCb 2
      ((mgrABCb.terminals.find? (fun p => p.1 = 2)).get (by decide)).2
      (by decide) (by decide) (by decide)).2 3 (by decide)
  · exact (c2_close_active_reassigns mgrA 1
      ((mgrA.terminals.find? (fun p => p.1 = 1)).get (by decide)).2
      (by decide) (by decide) (by decide)).1 (by decide)

end Frame

namespace Frame

/-- C3: with the registry at (or above) the bound, `createTerminal`
rejects: the manager is unchanged, no effect is produced — in
particular no `TERMINAL_CREATE` request reaches the host — and the
caller sees the rejection (a `null` return plus a console error in the
source, the `CapacityExceeded` failure of the spec). -/
theorem c3_capacity_exceeded (m : Manager) (cwd : Option String)
    (h : m.terminals.length ≥ m.maxTerminals) :
    createTerminal m cwd = (m, [], CreateResult.rejected) := by
  rw [createTerminal, if_pos h]

/-- Witness for C3: a 10th creation on the concrete nine-session
registry (bound 9) is rejected with no state change and no message. -/
theorem c3_capacity_exceeded_witness :
    mgr9.terminals.length = 9 ∧ mgr9.maxTerminals = 9 ∧
    createTerminal mgr9 none = (mgr9, [], CreateResult.rejected) :=
  ⟨by decide, by decide, c3_capacity_exceeded mgr9 none (by decide)⟩

/-- C4, counterexample to the claim as stated: on a host-initiated exit
notification for session 1 in the one-session state, the manager DOES
re-issue a `TERMINAL_DESTROY` request for id 1 (the handler calls
`closeTerminal`, which always sends it for a present id), contradicting
"does not re-issue a destroy request to the host for X". -/
theorem c4_counterexample :
    Eff.send (Msg.destroy 1) ∈ (terminalDestroyed mgrA 1).2 := by decide

/-- C4 (amended): the host-exit handler performs exactly the same
teardown as a user-initiated close — it is extensionally equal to
`closeTerminal` — and therefore also re-issues a `TERMINAL_DESTROY`
request for the exited id whenever it is still present; the redundant
destroy is not suppressed. -/
theorem c4_host_exit_teardown (m : Manager) (tid : Nat) :
    terminalDestroyed m tid = closeTerminal m tid ∧
    (∀ i, mapGet m.terminals tid = some i →
      Eff.send (Msg.destroy tid) ∈ (terminalDestroyed m tid).2) := by
  refine ⟨terminalDestroyed_eq_closeTerminal m tid, ?_⟩
  intro i hget
  rw [terminalDestroyed_eq_closeTerminal]
  simp only [closeTerminal, hget]
  by_cases hact : m.activeTerminalId = some tid
  · simp only [hact, if_pos]
    rcases hlast : ((mapDelete m.terminals tid).map (fun p => p.1)).getLast? with _ | k
    · simp only [hlast]
      simp [truthy]
    · simp only [hlast]
      by_cases hk : k = 0
      · simp [truthy, hk]
      · simp [truthy, hk]
  · simp [hact]

/-- Witness for C4: on the concrete one-session state, host exit for id
1 equals the user close and sends the destroy message. -/
theorem c4_host_exit_teardown_witness :
    terminalDestroyed mgrA 1 = closeTerminal mgrA 1 ∧
    Eff.send (Msg.destroy 1) ∈ (terminalDestroyed mgrA 1).2 :=
  ⟨(c4_host_exit_teardown mgrA 1).1,
   (c4_host_exit_teardown mgrA 1).2
     ((mgrA.terminals.find? (fun p => p.1 = 1)).get (by decide)).2 (by decide)⟩

lemma closeTerminal_of_not_present {m : Manager} {tid : Nat}
    (h : mapGet m.terminals tid = none) : closeTerminal m tid = (m, []) := by
  simp [closeTerminal, h]

lemma closeTerminal_keys {m : Manager} {tid : Nat} {i : Instance}
    (hget : mapGet m.terminals tid = some i) :
    (closeTerminal m tid).1.terminals.map (fun p => p.1) =
      (mapDelete m.terminals tid).map (fun p => p.1) := by
  simp only [closeTerminal, hget]
  by_cases hact : m.activeTerminalId = some tid
  · simp only [hact, if_pos]
    rcases hlast : ((mapDelete m.terminals tid).map (fun p => p.1)).getLast? with _ | k
    · simp only [hlast]
      simp [truthy]
    · simp only [hlast]
      by_cases hk : k = 0
      · simp [truthy, hk]
      · simp [truthy, hk, setActiveTerminal, keys_updEntry]
  · simp [hact]

/-- C5: `closeTerminal` on an id not in the registry is a no-op — no
state change, no message, no notification — and after a close of a
present id the id is gone, so a second user close and a racing
host-initiated exit notification for it are both no-ops: the session is
removed exactly once. -/
theorem c5_close_idempotent (m : Manager) (tid : Nat) :
    (mapGet m.terminals tid = none → closeTerminal m tid = (m, [])) ∧
    (∀ i, mapGet m.terminals tid = some i →
      mapGet (closeTerminal m tid).1.terminals tid = none ∧
      closeTerminal (closeTerminal m tid).1 tid = ((closeTerminal m tid).1, []) ∧
      terminalDestroyed (closeTerminal m tid).1 tid = ((closeTerminal m tid).1, [])) := by
  constructor
  · intro hget
    exact closeTerminal_of_not_present hget
  · intro i hget
    have hnone : mapGet (closeTerminal m tid).1.terminals tid = none := by
      rw [mapGet_eq_none_iff, closeTerminal_keys hget, keys_mapDelete]
      simp
    have h2 : closeTerminal (closeTerminal m tid).1 tid = ((closeTerminal m tid).1, []) :=
      closeTerminal_of_not_present hnone
    exact ⟨hnone, h2, by rw [terminalDestroyed_eq_closeTerminal]; exact h2⟩

/-- Witness for C5: closing the unknown id 5 in the one-session state is
a no-op; closing id 1 removes it, and a re-close and a late host exit
notification for id 1 are both no-ops. -/
theorem c5_close_idempotent_witness :
    closeTerminal mgrA 5 = (mgrA, []) ∧
    (mapGet (closeTerminal mgrA 1).1.terminals 1 = none ∧
      closeTerminal (closeTerminal mgrA 1).1 1 = ((closeTerminal mgrA 1).1, []) ∧
      terminalDestroyed (closeTerminal mgrA 1).1 1 = ((closeTerminal mgrA 1).1, [])) :=
  ⟨(c5_close_idempotent mgrA 5).1 (by decide),
   (c5_close_idempotent mgrA 1).2
     ((mgrA.terminals.find? (fun p => p.1 = 1)).get (by decide)).2 (by decide)⟩

end Frame

namespace Frame

/-- Is an effect a subscriber notification? -/
def isNotify : Eff → Bool
  | Eff.notify _ => true
  | Eff.send _ => false

/-- Number of subscriber notifications among an operation's effects. -/
def countNotify (effs : List Eff) : Nat :=
  (effs.filter isNotify).length

/-- C6, counterexample to the claim as stated: completing the creation
of the first session triggers TWO synchronous notifications, not
exactly one — `_initializeTerminal` auto-activates the new session via
`setActiveTerminal` (which notifies) and then notifies again itself. -/
theorem c6_counterexample :
    countNotify (initializeTerminal initialManager 1 none 10).2 = 2 := by decide

/-- C6 (amended): every mutating operation synchronously notifies at
least once and its last notification carries the fresh snapshot of the
resulting state; view-mode, grid-layout, set-active and rename trigger
exactly one notification, while creation completion triggers two
exactly when it auto-activates (sole session or no truthy active id)
and closing a present session triggers two exactly when it was the
active one and a truthy last remaining key exists (the nested
`setActiveTerminal` notifies as well). -/
theorem c6_notification_discipline :
    (∀ (m : Manager) (mode : String),
      (setViewMode m mode).2 = [Eff.notify (mkSnapshot (setViewMode m mode).1)]) ∧
    (∀ (m : Manager) (layout : String),
      (setGridLayout m layout).2 = [Eff.notify (mkSnapshot (setGridLayout m layout).1)]) ∧
    (∀ (m : Manager) (tid : Nat),
      (setActiveTerminal m tid).2 = [Eff.notify (mkSnapshot (setActiveTerminal m tid).1)]) ∧
    (∀ (m : Manager) (tid : Nat) (nm : String) (i : Instance),
      mapGet m.terminals tid = some i →
      (renameTerminal m tid nm).2 = [Eff.notify (mkSnapshot (renameTerminal m tid nm).1)]) ∧
    (∀ (m : Manager) (tid : Nat) (nopt : Option String) (now : Nat),
      countNotify (initializeTerminal m tid nopt now).2 =
        (if ((mapSet m.terminals tid (initInstance m tid nopt now)).length == 1
            || !truthy m.activeTerminalId) = true then 2 else 1) ∧
      (initializeTerminal m tid nopt now).2.getLast? =
        some (Eff.notify (mkSnapshot (initializeTerminal m tid nopt now).1))) ∧
    (∀ (m : Manager) (tid : Nat) (i : Instance),
      mapGet m.terminals tid = some i →
      countNotify (closeTerminal m tid).2 =
        (if m.activeTerminalId = some tid ∧
            truthy ((mapDelete m.terminals tid).map (fun p => p.1)).getLast? = true
          then 2 else 1) ∧
      (closeTerminal m tid).2.getLast? =
        some (Eff.notify (mkSnapshot (closeTerminal m tid).1))) := by
  refine ⟨fun m mode => rfl, fun m layout => rfl, fun m tid => rfl, ?_, ?_, ?_⟩
  · intro m tid nm i hget
    simp [renameTerminal, hget, notifyEff]
  · intro m tid nopt now
    by_cases hcond : ((mapSet m.terminals tid (initInstance m tid nopt now)).length == 1
        || !truthy m.activeTerminalId) = true
    · constructor
      · simp only [initializeTerminal, hcond, if_pos, if_true]
        simp [setActiveTerminal, countNotify, isNotify, notifyEff, hcond]
      · simp only [initializeTerminal, hcond, if_pos, if_true]
        simp [setActiveTerminal, notifyEff]
    · constructor
      · simp only [initializeTerminal, hcond, if_neg, if_false]
        simp [countNotify, isNotify, notifyEff, hcond]
      · simp only [initializeTerminal, hcond, if_neg, if_false]
        simp [notifyEff]
  · intro m tid i hget
    by_cases hact : m.activeTerminalId = some tid
    · rcases hlast : ((mapDelete m.terminals tid).map (fun p => p.1)).getLast? with _ | k
      · constructor
        · simp only [closeTerminal, hget, hact, if_pos, hlast]
          simp [truthy, countNotify, isNotify, notifyEff, hact, hlast]
        · simp only [closeTerminal, hget, hact, if_pos, hlast]
          simp [truthy, notifyEff]
      · by_cases hk : k = 0
        · constructor
          · simp only [closeTerminal, hget, hact, if_pos, hlast]
            simp [truthy, hk, countNotify, isNotify, notifyEff, hact, hlast]
          · simp only [closeTerminal, hget, hact, if_pos, hlast]
            simp [truthy, hk, notifyEff]
        · constructor
          · simp only [closeTerminal, hget, hact, if_pos, hlast]
            simp [truthy, hk, setActiveTerminal, countNotify, isNotify, notifyEff,
              hact, hlast]
          · simp only [closeTerminal, hget, hact, if_pos, hlast]
            simp [truthy, hk, setActiveTerminal, notifyEff]
    · constructor
      · simp only [closeTerminal, hget, hact, if_neg, if_false]
        simp [countNotify, isNotify, notifyEff, hact]
      · simp only [closeTerminal, hget, hact, if_neg, if_false]
        simp [notifyEff]

/-- Witness for C6: on concrete states — rename of session 1 notifies
exactly once with the fresh snapshot; closing the active session B of
the three-session scenario notifies twice; closing the sole session
notifies once. -/
theorem c6_notification_discipline_witness :
    (renameTerminal mgrA 1 "shell").2 =
      [Eff.notify (mkSnapshot (renameTerminal mgrA 1 "shell").1)] ∧
    countNotify (closeTerminal mgrABCb 2).2 = 2 ∧
    countNotify (closeTerminal mgrA 1).2 = 1 := by
  refine ⟨?_, ?_, ?_⟩
  · exact c6_notification_discipline.2.2.2.1 mgrA 1 "shell"
      ((mgrA.terminals.find? (fun p => p.1 = 1)).get (by decide)).2 (by decide)
  · have h := (c6_notification_discipline.2.2.2.2.2 mgrABCb 2
      ((mgrABCb.terminals.find? (fun p => p.1 = 2)).get (by decide)).2 (by decide)).1
    rw [h]
    decide
  · have h := (c6_notification_discipline.2.2.2.2.2 mgrA 1
      ((mgrA.terminals.find? (fun p => p.1 = 1)).get (by decide)).2 (by decide)).1
    rw [h]
    decide

end Frame

namespace Frame

/-- C7: `getTerminalStates` returns exactly the session states (a
permutation of the registry's states), ordered by `createdAt` ascending,
and stably: for every timestamp the sub-sequence of states with that
`createdAt` appears in insertion (= registry) order. -/
theorem c7_states_ordered (m : Manager) :
    List.Perm (getTerminalStates m) (m.terminals.map (fun p => p.2.state)) ∧
    (getTerminalStates m).Pairwise (fun a b => a.createdAt ≤ b.createdAt) ∧
    (∀ t : Nat, (getTerminalStates m).filter (fun s => s.createdAt == t) =
      (m.terminals.map (fun p => p.2.state)).filter (fun s => s.createdAt == t)) :=
  ⟨sortByCreatedAt_perm _, sortByCreatedAt_sorted _,
   fun t => sortByCreatedAt_filter _ t⟩

/-- C8: renaming a present session updates only that session's display
name metadata (`name` and `customName`; `id`, `isActive`, `createdAt`,
`opened` and the emulator dimensions are untouched), leaves every other
session, the active id, the view state and the counters unchanged,
sends nothing to the host (all effects are notifications), and a
subsequent host-initiated exit for that id still removes the session. -/
theorem c8_rename_only_metadata (m : Manager) (tid : Nat) (nm : String)
    (i : Instance) (hget : mapGet m.terminals tid = some i) :
    mapGet (renameTerminal m tid nm).1.terminals tid =
      some { i with state := { i.state with name := nm, customName := some nm } } ∧
    (∀ p ∈ m.terminals, p.1 ≠ tid → p ∈ (renameTerminal m tid nm).1.terminals) ∧
    (renameTerminal m tid nm).1.activeTerminalId = m.activeTerminalId ∧
    (renameTerminal m tid nm).1.viewMode = m.viewMode ∧
    (renameTerminal m tid nm).1.gridLayout = m.gridLayout ∧
    (renameTerminal m tid nm).1.maxTerminals = m.maxTerminals ∧
    (renameTerminal m tid nm).1.terminalCounter = m.terminalCounter ∧
    (∀ e ∈ (renameTerminal m tid nm).2, isNotify e = true) ∧
    mapGet (terminalDestroyed (renameTerminal m tid nm).1 tid).1.terminals tid = none := by
  have hterm : (renameTerminal m tid nm).1.terminals = updEntry m.terminals tid
      (fun j => { j with state := { j.state with customName := some nm, name := nm } }) := by
    simp [renameTerminal, hget]
  have hget2 : mapGet (renameTerminal m tid nm).1.terminals tid =
      some { i with state := { i.state with name := nm, customName := some nm } } := by
    rw [hterm, mapGet_updEntry_self, hget]
    rfl
  refine ⟨hget2, ?_, ?_, ?_, ?_, ?_, ?_, ?_, ?_⟩
  · intro p hp hne
    rw [hterm]
    exact List.mem_map.2 ⟨p, hp, by rw [if_neg hne]⟩
  · simp [renameTerminal, hget]
  · simp [renameTerminal, hget]
  · simp [renameTerminal, hget]
  · simp [renameTerminal, hget]
  · simp [renameTerminal, hget]
  · simp [renameTerminal, hget, notifyEff, isNotify]
  · rw [terminalDestroyed_eq_closeTerminal, mapGet_eq_none_iff,
      closeTerminal_keys hget2, keys_mapDelete]
    simp

/-- Witness for C8: renaming session 1 of the one-session state keeps
the active id and a later host exit for id 1 still removes it. -/
theorem c8_rename_only_metadata_witness :
    (renameTerminal mgrA 1 "build").1.activeTerminalId = mgrA.activeTerminalId ∧
    mapGet (terminalDestroyed (renameTerminal mgrA 1 "build").1 1).1.terminals 1 = none := by
  have h := c8_rename_only_metadata mgrA 1 "build"
    ((mgrA.terminals.find? (fun p => p.1 = 1)).get (by decide)).2 (by decide)
  exact ⟨h.2.2.1, h.2.2.2.2.2.2.2.2⟩

end Frame

namespace Frame

lemma sendResize_after_mapSet (m : Manager) (k : Nat) (v : Instance) :
    sendResize { m with terminals := mapSet m.terminals k v } k =
      ({ m with terminals := mapSet m.terminals k v },
        [Eff.send (Msg.resize k v.cols v.rows)]) := by
  rw [sendResize, mapGet_mapSet_self]

lemma fitAllAux_effs (fit : Nat → Nat × Nat) :
    ∀ (l : List (Nat × Instance)) (m : Manager),
      (fitAllAux fit m l).2 = l.filterMap (fun p =>
        if p.2.opened = true then
          some (Eff.send (Msg.resize p.1 (fit p.1).1 (fit p.1).2))
        else none) := by
  intro l
  induction l with
  | nil => intro m; rfl
  | cons kv rest ih =>
      intro m
      rw [fitAllAux, List.filterMap_cons]
      by_cases hop : kv.2.opened = true
      · simp [hop, sendResize_after_mapSet, ih]
      · simp [hop, ih]

/-- C9: one `fitAll` call produces exactly the `TERMINAL_RESIZE`
messages of the currently mounted (opened) sessions, one per mounted
session in registry order and none for unmounted ones, each carrying
the (cols, rows) pair the session's emulator fit computation yields. -/
theorem c9_fitAll_resizes (m : Manager) (fit : Nat → Nat × Nat) :
    (fitAll m fit).2 = m.terminals.filterMap (fun p =>
      if p.2.opened = true then
        some (Eff.send (Msg.resize p.1 (fit p.1).1 (fit p.1).2))
      else none) := by
  rw [fitAll]
  exact fitAllAux_effs fit m.terminals m

end Frame

namespace Frame

lemma setActiveTerminal_counter (m : Manager) (tid : Nat) :
    (setActiveTerminal m tid).1.terminalCounter = m.terminalCounter := rfl

lemma initializeTerminal_counter (m : Manager) (tid : Nat) (nopt : Option String)
    (now : Nat) :
    (initializeTerminal m tid nopt now).1.terminalCounter = initCounter m nopt := by
  rw [initializeTerminal]
  by_cases hcond : ((mapSet m.terminals tid (initInstance m tid nopt now)).length == 1
      || !truthy m.activeTerminalId) = true
  · simp [hcond, setActiveTerminal_counter]
  · simp [hcond]

lemma closeTerminal_counter (m : Manager) (tid : Nat) :
    (closeTerminal m tid).1.terminalCounter = m.terminalCounter := by
  rcases hget : mapGet m.terminals tid with _ | i
  · simp [closeTerminal, hget]
  · simp only [closeTerminal, hget]
    by_cases hact : m.activeTerminalId = some tid
    · simp only [hact, if_pos]
      rcases hlast : ((mapDelete m.terminals tid).map (fun p => p.1)).getLast? with _ | k
      · simp only [hlast]
        simp [truthy]
      · simp only [hlast]
        by_cases hk : k = 0
        · simp [truthy, hk]
        · simp [truthy, hk, setActiveTerminal_counter]
    · simp [hact]

lemma renameTerminal_counter (m : Manager) (tid : Nat) (nm : String) :
    (renameTerminal m tid nm).1.terminalCounter = m.terminalCounter := by
  rcases hget : mapGet m.terminals tid with _ | i <;> simp [renameTerminal, hget]

lemma mountTerminal_counter (m : Manager) (tid : Nat) (hc : Bool) :
    (mountTerminal m tid hc).terminalCounter = m.terminalCounter := by
  rcases hget : mapGet m.terminals tid with _ | i
  · simp [mountTerminal, hget]
  · by_cases hb : hc = true <;> simp [mountTerminal, hget, hb]

lemma fitAllAux_counter (fit : Nat → Nat × Nat) :
    ∀ (l : List (Nat × Instance)) (m : Manager),
      (fitAllAux fit m l).1.terminalCounter = m.terminalCounter := by
  intro l
  induction l with
  | nil => intro m; rfl
  | cons kv rest ih =>
      intro m
      rw [fitAllAux]
      by_cases hop : kv.2.opened = true
      · simp [hop, sendResize_after_mapSet, ih]
      · simp [hop, ih]

/-- Counter never decreases across any single operation. -/
lemma stepOp_counter_mono (m : Manager) (o : Op) :
    m.terminalCounter ≤ (stepOp m o).terminalCounter := by
  cases o with
  | create cwd => rw [stepOp, createTerminal_fst]
  | init tid nopt now =>
      rw [stepOp, initializeTerminal_counter, initCounter]
      rcases jsStr nopt with _ | s <;> simp
  | close tid => rw [stepOp, closeTerminal_counter]
  | setAct tid => rw [stepOp, setActiveTerminal_counter]
  | rename tid nm => rw [stepOp, renameTerminal_counter]
  | hostExit tid =>
      rw [stepOp, terminalDestroyed_eq_closeTerminal, closeTerminal_counter]
  | setView mode => exact le_refl _
  | setGrid layout => exact le_refl _
  | mount tid hc => rw [stepOp, mountTerminal_counter]
  | fitAllOp fit => rw [stepOp, fitAll]; rw [fitAllAux_counter]

lemma stepOp_counter_init_default (m : Manager) (tid : Nat) {nopt : Option String}
    (now : Nat) (h : jsStr nopt = none) :
    (stepOp m (Op.init tid nopt now)).terminalCounter = m.terminalCounter + 1 := by
  rw [stepOp, initializeTerminal_counter, initCounter, h]

/-- Every sequence number consumed along a run exceeds the starting
counter. -/
lemma seqNumsFrom_gt (ops : List Op) :
    ∀ (m : Manager) (x : Nat), x ∈ seqNumsFrom m ops → m.terminalCounter < x := by
  induction ops with
  | nil => intro m x hx; simp [seqNumsFrom] at hx
  | cons o os ih =>
      intro m x hx
      rw [seqNumsFrom] at hx
      rcases List.mem_append.1 hx with hx | hx
      · cases o with
        | init tid nopt now =>
            by_cases hjs : jsStr nopt = none
            · have hh : seqNumHead m (Op.init tid nopt now) = [m.terminalCounter + 1] := by
                simp [seqNumHead, hjs]
              rw [hh] at hx
              simp at hx
              omega
            · have hh : seqNumHead m (Op.init tid nopt now) = [] := by
                simp [seqNumHead, hjs]
              rw [hh] at hx
              simp at hx
        | create cwd => simp [seqNumHead] at hx
        | close tid => simp [seqNumHead] at hx
        | setAct tid => simp [seqNumHead] at hx
        | rename tid nm => simp [seqNumHead] at hx
        | hostExit tid => simp [seqNumHead] at hx
        | setView mode => simp [seqNumHead] at hx
        | setGrid layout => simp [seqNumHead] at hx
        | mount tid hc => simp [seqNumHead] at hx
        | fitAllOp fit => simp [seqNumHead] at hx
      · have h1 := ih (stepOp m o) x hx
        have h2 := stepOp_counter_mono m o
        omega

/-- C10: the default-name counter only increases over every sequence of
operations (closing sessions never decrements or resets it), and the
sequence numbers consumed for default display names (`Terminal N`)
along any run are strictly increasing — each newly created
default-named session bears a number never borne by any earlier
session. -/
theorem c10_counter_monotone_fresh :
    (∀ (m : Manager) (o : Op), m.terminalCounter ≤ (stepOp m o).terminalCounter) ∧
    (∀ (m : Manager) (ops : List Op),
      List.Pairwise (fun a b => a < b) (seqNumsFrom m ops)) := by
  refine ⟨stepOp_counter_mono, ?_⟩
  intro m ops
  induction ops generalizing m with
  | nil => simp [seqNumsFrom]
  | cons o os ih =>
      rw [seqNumsFrom]
      cases o with
      | init tid nopt now =>
          by_cases hjs : jsStr nopt = none
          · have hh : seqNumHead m (Op.init tid nopt now) = [m.terminalCounter + 1] := by
              simp [seqNumHead, hjs]
            rw [hh, List.singleton_append, List.pairwise_cons]
            refine ⟨?_, ih _⟩
            intro b hb
            have h1 := seqNumsFrom_gt os (stepOp m (Op.init tid nopt now)) b hb
            rw [stepOp_counter_init_default m tid now hjs] at h1
            omega
          · have hh : seqNumHead m (Op.init tid nopt now) = [] := by
              simp [seqNumHead, hjs]
            rw [hh, List.nil_append]
            exact ih _
      | create cwd => simpa [seqNumHead] using ih _
      | close tid => simpa [seqNumHead] using ih _
      | setAct tid => simpa [seqNumHead] using ih _
      | rename tid nm => simpa [seqNumHead] using ih _
      | hostExit tid => simpa [seqNumHead] using ih _
      | setView mode => simpa [seqNumHead] using ih _
      | setGrid layout => simpa [seqNumHead] using ih _
      | mount tid hc => simpa [seqNumHead] using ih _
      | fitAllOp fit => simpa [seqNumHead] using ih _

end Frame
